import Mathlib

/-!
Shallow embedding of the streaming tool-use orchestration of the caseAgent
repository (Express server `app.post('/api/chat')` plus `tools.js`), with the
theorems checking the natural-language specification against it.

Conventions of the embedding:
* JavaScript values flowing through the orchestrator are modelled by the
  inductive `Json`; JS numbers are modelled as rationals (the claims under
  check only involve values that are exact in IEEE doubles, such as 7500).
* Host functions the code delegates to (the `eval` builtin, `Math.pow`,
  `JSON.parse`, the staff-directory file, the hosted retrieval service) are
  parameters of the definitions that use them.
* Thrown JS exceptions are modelled as `Except.error` carrying the message;
  `Except.ok` is a normal return.
-/

inductive Json where
  | null
  | bool (b : Bool)
  | num (q : ℚ)
  | str (s : String)
  | arr (xs : List Json)
  | obj (kvs : List (String × Json))

/-- Property access `j.k` on a JS object, `none` when the key is absent or the
value is not an object (JS would yield `undefined`). -/
def jGet (j : Json) (k : String) : Option Json :=
  match j with
  | Json.obj kvs => kvs.lookup k
  | _ => none

/-- JS truthiness of a present value: `null`, `false`, `0` and `""` are falsy;
every other object, array, string or number is truthy. -/
def jsTruthy : Json → Bool
  | Json.null => false
  | Json.bool b => b
  | Json.num q => decide (q ≠ 0)
  | Json.str s => !(s = "")
  | Json.arr _ => true
  | Json.obj _ => true

/-- JS truthiness of a possibly-absent value (`undefined` is falsy). -/
def jsTruthyOpt : Option Json → Bool
  | none => false
  | some j => jsTruthy j

/-- Characters removed by the JS `.trim()` in this model (JS also strips some
rarer Unicode whitespace; none of the claims involve it). -/
def jsWhitespace (c : Char) : Bool := c = ' ' || c = '\t' || c = '\n' || c = '\r'

/-- The JS `String.prototype.trim`. -/
def jsTrim (s : String) : String :=
  String.mk (((s.toList.dropWhile jsWhitespace).reverse.dropWhile jsWhitespace).reverse)

/-- The JS `String.prototype.toLowerCase` (ASCII part, which is all the staff
lookup cares about). -/
def jsToLower (s : String) : String := String.mk (s.toList.map Char.toLower)

def hasInfixAux (needle : List Char) : List Char → Bool
  | [] => needle.isEmpty
  | c :: rest => needle.isPrefixOf (c :: rest) || hasInfixAux needle rest

/-- The JS `String.prototype.includes`. -/
def strIncludes (hay needle : String) : Bool := hasInfixAux needle.toList hay.toList

/-- The JS `Math.round`: round half toward positive infinity. -/
def jsRound (q : ℚ) : ℚ := (⌊q + 1/2⌋ : ℤ)

/-- The JS `array.join('')` used on `fullContent`. -/
def concatStrs : List String → String
  | [] => ""
  | a :: l => a ++ concatStrs l

mutual

/-- Compact serialization of a `Json` value, standing in for the host
`JSON.stringify(x, null, 2)` (whitespace layout and numeric formatting are not
inspected by any claim, only which value is serialized). -/
def Json.render : Json → String
  | .null => "null"
  | .bool true => "true"
  | .bool false => "false"
  | .num q => toString q.num ++ (if q.den = 1 then "" else "/" ++ toString q.den)
  | .str s => "\"" ++ s ++ "\""
  | .arr xs => "[" ++ Json.renderList xs ++ "]"
  | .obj kvs => "\x7b" ++ Json.renderObj kvs ++ "\x7d"

def Json.renderList : List Json → String
  | [] => ""
  | [x] => Json.render x
  | x :: xs => Json.render x ++ "," ++ Json.renderList xs

def Json.renderObj : List (String × Json) → String
  | [] => ""
  | [(k, v)] => "\"" ++ k ++ "\":" ++ Json.render v
  | (k, v) :: xs => "\"" ++ k ++ "\":" ++ Json.render v ++ "," ++ Json.renderObj xs

end

/-! ## Streamed events and the reconstruction state machine

Embedding of the event loop of the streaming branch of `app.post('/api/chat')`
(`for await (const event of stream)`), which rebuilds content blocks from
incremental fragments. -/

/-- The `content_block` field of a `content_block_start` event: a text block or
a `tool_use` block carrying its id and tool name. -/
inductive CBlock where
  | text
  | toolUse (id name : String)

/-- The `delta` field of a `content_block_delta` event. -/
inductive Delta where
  | textDelta (text : String)
  | inputJsonDelta (partial_json : String)

/-- One streamed event. `other` stands for event types the loop does not act on
(`message_start`, `message_delta`, `ping`, ...). -/
inductive SEvent where
  | blockStart (content_block : CBlock)
  | blockDelta (delta : Delta)
  | blockStop
  | messageStop
  | other

/-- A tool-use accumulator while its block is open: `currentToolUse` in the
source, with `input` the raw partial-JSON buffer. -/
structure RawToolUse where
  id : String
  name : String
  input : String

/-- A completed tool invocation after `JSON.parse` of its buffer succeeded. -/
structure ToolUse where
  id : String
  name : String
  input : Json

/-- The mutable state of the streaming loop: `fullContent`, `toolUseBlocks`,
`currentToolUse`, `currentTextBlock`. -/
structure SState where
  fullContent : List String
  toolUseBlocks : List ToolUse
  currentToolUse : Option RawToolUse
  currentTextBlock : String

def initState : SState := ⟨[], [], none, ""⟩

/-- One iteration of the event loop, for a `JSON.parse` modelled by `p`
(`none` models a parse exception caught by the handler). Transcribed from the
`content_block_start` / `content_block_delta` / `content_block_stop` /
`message_stop` branches of the source. -/
def stepEvent (p : String → Option Json) (s : SState) : SEvent → SState
  | .blockStart (.toolUse id name) =>
      let s' := if s.currentTextBlock ≠ "" then
          { s with fullContent := s.fullContent ++ [s.currentTextBlock], currentTextBlock := "" }
        else s
      { s' with currentToolUse := some ⟨id, name, ""⟩ }
  | .blockStart .text => { s with currentTextBlock := "" }
  | .blockDelta (.textDelta t) => { s with currentTextBlock := s.currentTextBlock ++ t }
  | .blockDelta (.inputJsonDelta t) =>
      match s.currentToolUse with
      | some r => { s with currentToolUse := some ⟨r.id, r.name, r.input ++ t⟩ }
      | none => s
  | .blockStop =>
      match s.currentToolUse with
      | some r =>
          let s' : SState := match p r.input with
            | some v => { s with toolUseBlocks := s.toolUseBlocks ++ [⟨r.id, r.name, v⟩] }
            | none => s
          { s' with currentToolUse := none }
      | none =>
          if s.currentTextBlock ≠ "" then
            { s with fullContent := s.fullContent ++ [s.currentTextBlock], currentTextBlock := "" }
          else s
  | .messageStop =>
      if s.currentTextBlock ≠ "" then
        { s with fullContent := s.fullContent ++ [s.currentTextBlock] }
      else s
  | .other => s

def processEvents (p : String → Option Json) (evs : List SEvent) (s : SState) : SState :=
  evs.foldl (stepEvent p) s

/-- A source content block of the collaborator's stream, with the fragment list
its deltas carry: a text block or a tool-invocation block. -/
inductive Block where
  | text (frags : List String)
  | tool (id name : String) (frags : List String)

/-- The canonical event sequence of one block: `content_block_start`, one
`content_block_delta` per fragment, `content_block_stop`. -/
def encodeBlock : Block → List SEvent
  | .text fs => SEvent.blockStart .text :: fs.map (fun t => .blockDelta (.textDelta t)) ++ [.blockStop]
  | .tool id name fs =>
      SEvent.blockStart (.toolUse id name) :: fs.map (fun t => .blockDelta (.inputJsonDelta t)) ++ [.blockStop]

def encodeBlocks (bs : List Block) : List SEvent := bs.flatMap encodeBlock

/-- The canonical event sequence of a whole streamed message: the blocks in
order, then `message_stop`. -/
def encodeMessage (bs : List Block) : List SEvent := encodeBlocks bs ++ [SEvent.messageStop]

/-- The text entries a block contributes to `fullContent`: the concatenation of
its fragments when nonempty (the loop only pushes a truthy `currentTextBlock`). -/
def textsOfBlock : Block → List String
  | .text fs => if concatStrs fs ≠ "" then [concatStrs fs] else []
  | .tool _ _ _ => []

/-- The entries a block contributes to `toolUseBlocks`: its id and name with
the parse of the concatenated fragment buffer, nothing when the parse fails. -/
def toolsOfBlock (p : String → Option Json) : Block → List ToolUse
  | .text _ => []
  | .tool id name fs =>
      match p (concatStrs fs) with
      | some v => [⟨id, name, v⟩]
      | none => []

/-! ## Tool execution and the follow-up conversation

Embedding of the `message_stop` branch: the tool execution loop, the
`assistantContent` construction and `updatedMessages`. The tool executor is a
parameter `exec`; `Except.error m` models `executeTool` throwing `m`. -/

/-- A `tool_result` entry. The source adds `is_error: true` only on failure;
success is modelled as `is_error := false`. -/
structure ToolResult where
  tool_use_id : String
  content : String
  is_error : Bool

/-- The body of one iteration of the execution loop: `try` push a success
result `catch` push an error-flagged result. -/
def toolResult (exec : String → Json → Except String String) (t : ToolUse) : ToolResult :=
  match exec t.name t.input with
  | .ok r => ⟨t.id, r, false⟩
  | .error m => ⟨t.id, "Error executing tool: " ++ m, true⟩

/-- The `for (const toolUse of toolUseBlocks)` loop accumulating `toolResults`
by pushing. -/
def runTools (exec : String → Json → Except String String) (tus : List ToolUse) : List ToolResult :=
  tus.foldl (fun acc t => acc ++ [toolResult exec t]) []

/-- A content item of a conversation turn. -/
inductive ContentItem where
  | text (text : String)
  | toolUse (id name : String) (input : Json)
  | toolResultItem (tool_use_id : String) (content : String) (is_error : Bool)

def toolUseItem (t : ToolUse) : ContentItem := .toolUse t.id t.name t.input

def toolResultContentItem (r : ToolResult) : ContentItem :=
  .toolResultItem r.tool_use_id r.content r.is_error

/-- The `assistantContent` construction: flush the accumulated text (joined and
trimmed, only when nonempty), append every tool-use block, and fall back to a
single empty text block when the list would be empty. -/
def buildAssistantContent (fullContent : List String) (tus : List ToolUse) : List ContentItem :=
  let accumulatedText := jsTrim (concatStrs fullContent)
  let ac := (if accumulatedText ≠ "" then [ContentItem.text accumulatedText] else [])
    ++ tus.map toolUseItem
  if ac.length = 0 then [ContentItem.text ""] else ac

/-- One turn of the conversation sent to the collaborator. -/
structure Msg where
  role : String
  content : List ContentItem

/-- The `updatedMessages` construction: the original messages plus one
assistant turn (`assistantContent`) and one user turn (the tool results). -/
def buildUpdatedMessages (messages : List Msg) (fullContent : List String)
    (tus : List ToolUse) (exec : String → Json → Except String String) : List Msg :=
  messages ++
    [⟨"assistant", buildAssistantContent fullContent tus⟩,
     ⟨"user", (runTools exec tus).map toolResultContentItem⟩]

/-- The list of `(name, input)` argument pairs `executeTool` is invoked with by
the execution loop, in loop order. -/
def execCalls (tus : List ToolUse) : List (String × Json) := tus.map fun t => (t.name, t.input)

/-- The calls made after streaming a whole message: the execution loop runs
over the reconstructed `toolUseBlocks`. -/
def streamedCalls (p : String → Option Json) (bs : List Block) : List (String × Json) :=
  execCalls (processEvents p (encodeMessage bs) initState).toolUseBlocks

/-! ## The browser client's text assembly and the non-streaming extraction

Embedding of `public/app.js` (`sendMessageWithStreaming`'s event handling) and
of the non-streaming branch's final text extraction, for the claim that both
paths show the same final assistant text. -/

/-- The client-side accumulation state of `app.js`. -/
structure ClientState where
  accumulatedContent : String
  pendingText : String
  hasSeenToolUse : Bool

/-- One client-side event-handling step, transcribed from the
`content_block_delta` / `content_block_start` / `content_block_stop` /
`message_stop` branches of `app.js`. -/
def clientStep (c : ClientState) : SEvent → ClientState
  | .blockDelta (.textDelta t) =>
      if c.hasSeenToolUse then { c with accumulatedContent := c.accumulatedContent ++ t }
      else { c with pendingText := c.pendingText ++ t }
  | .blockDelta (.inputJsonDelta _) => c
  | .blockStart (.toolUse _ _) => { c with hasSeenToolUse := true, pendingText := "" }
  | .blockStart .text => c
  | .blockStop =>
      if c.pendingText ≠ "" ∧ c.hasSeenToolUse = false then
        { c with accumulatedContent := c.accumulatedContent ++ c.pendingText, pendingText := "" }
      else c
  | .messageStop =>
      if c.pendingText ≠ "" ∧ c.hasSeenToolUse = false then
        { c with accumulatedContent := c.accumulatedContent ++ c.pendingText }
      else c
  | .other => c

def clientRun (evs : List SEvent) (c : ClientState) : ClientState := evs.foldl clientStep c

def ContentItem.isTextB : ContentItem → Bool
  | .text _ => true
  | _ => false

def ContentItem.textVal : ContentItem → String
  | .text t => t
  | _ => ""

/-- The non-streaming branch's extraction of the final response text:
`content.filter(b => b.type === 'text').map(b => b.text).join('')`. -/
def extractText (content : List ContentItem) : String :=
  concatStrs ((content.filter ContentItem.isTextB).map ContentItem.textVal)

/-- The structured response content the same collaborator message has in the
non-streaming API shape: each text block carries the concatenation of its
streamed fragments. Tool-use inputs are irrelevant to text extraction and
stand as `Json.null`. -/
def blockContentItem : Block → ContentItem
  | .text fs => .text (concatStrs fs)
  | .tool id name _ => .toolUse id name Json.null

/-! ## The tool registry of `tools.js`

`lookupStaffDirectory`, `companyCalculator` and the dispatcher `executeTool`.
The staff directory loaded from disk is the parameter `sd` (its records carry
further fields the lookup never touches); the host `eval` builtin and
`Math.pow` are the fields of `CalcHost`; `now` is the `toISOString`
timestamp. Where JS would implicitly coerce a truthy non-number into
arithmetic, the model throws instead (no claim exercises coercion), and
division by zero is rational division by zero (JS would produce
Infinity/NaN; no claim exercises it). -/

/-- Property access `values.f` where `values` itself may be `undefined` or
`null` (then JS throws a TypeError). -/
def vget (values : Option Json) (f : String) : Except String (Option Json) :=
  match values with
  | none => .error ("Cannot read properties of undefined (reading " ++ f ++ ")")
  | some Json.null => .error ("Cannot read properties of null (reading " ++ f ++ ")")
  | some v => .ok (jGet v f)

/-- The `x || d` default pattern for count-like inputs (`values.income || 0`):
the value when truthy, the default when falsy or absent; a truthy non-number
throws in the model. -/
def jsOrNum (v : Option Json) (d : ℚ) : Except String ℚ :=
  match v with
  | some (Json.num q) => .ok (if q = 0 then d else q)
  | some j => if jsTruthy j then .error "non-numeric operand" else .ok d
  | none => .ok d

/-- The `x || d` default pattern kept as a JS value (`description || '...'`,
`expenses || []`). -/
def jsOrJ (v : Option Json) (d : Json) : Json :=
  match v with
  | some j => if jsTruthy j then j else d
  | none => d

/-- A guarded-truthy operand read as a number. -/
def asNum (v : Option Json) : Except String ℚ :=
  match v with
  | some (Json.num q) => .ok q
  | _ => .error "non-numeric operand"

def allNums : List Json → Except String (List ℚ)
  | [] => .ok []
  | Json.num q :: rest => do pure (q :: (← allNums rest))
  | _ :: _ => .error "non-numeric operand"

/-- The character class kept by the sanitization
`expression.replace(/[^0-9+\-*/.() ]/g, '')` of the `basic_math` branch. -/
def allowedChar (c : Char) : Bool :=
  c.isDigit || c = '+' || c = '-' || c = '*' || c = '/' || c = '.' ||
    c = '(' || c = ')' || c = ' '

/-- The sanitized string handed to the `eval` builtin: every character outside
the allowed class removed. -/
def sanitizeExpr (s : String) : String := String.mk (s.toList.filter allowedChar)

/-- Rendering of a value in a template literal (`${operation}`). -/
def jsDisplay : Option Json → String
  | none => "undefined"
  | some Json.null => "null"
  | some (Json.bool true) => "true"
  | some (Json.bool false) => "false"
  | some (Json.num q) => toString q.num ++ (if q.den = 1 then "" else "/" ++ toString q.den)
  | some (Json.str s) => s
  | some (Json.arr _) => "[array]"
  | some (Json.obj _) => "[object Object]"

/-- Host capabilities the calculator delegates to. -/
structure CalcHost where
  evalExpr : String → Except String ℚ
  pow : ℚ → ℚ → ℚ

/-- The `Math.round(x * 100) / 100` two-decimal rounding used throughout the
calculator. -/
def round2 (q : ℚ) : ℚ := jsRound (q * 100) / 100

/-- The `try` block of `companyCalculator`: the `switch (operation)` computing
the `result` object; `Except.error` is a thrown exception reaching the `catch`. -/
def calcCore (P : CalcHost) (input : Json) : Except String Json :=
  let operation := jGet input "operation"
  let values := jGet input "values"
  let description := jGet input "description"
  match operation with
  | some (Json.str "basic_math") => do
      let expr ← vget values "expression"
      if jsTruthyOpt expr then
        match expr with
        | some (Json.str e) => do
            let r ← P.evalExpr (sanitizeExpr e)
            pure (Json.obj [("expression", Json.str e), ("result", Json.num r),
              ("description", jsOrJ description (Json.str "Basic calculation"))])
        | _ => .error "values.expression.replace is not a function"
      else do
        let nums ← vget values "numbers"
        let op ← vget values "operator"
        if jsTruthyOpt nums && jsTruthyOpt op then do
          let ns ← match nums with
            | some (Json.arr xs) => allNums xs
            | _ => Except.error "values.numbers.reduce is not a function"
          let calcResult ← match op with
            | some (Json.str "+") => pure (ns.foldl (· + ·) (0 : ℚ))
            | some (Json.str "-") =>
                match ns with
                | [] => Except.error "Reduce of empty array with no initial value"
                | a :: rest => pure (rest.foldl (· - ·) a)
            | some (Json.str "*") => pure (ns.foldl (· * ·) (1 : ℚ))
            | some (Json.str "/") =>
                match ns with
                | [] => Except.error "Reduce of empty array with no initial value"
                | a :: rest => pure (rest.foldl (· / ·) a)
            | _ => Except.error "Invalid operator"
          pure (Json.obj [("numbers", jsOrJ nums Json.null), ("operator", jsOrJ op Json.null),
            ("result", Json.num calcResult),
            ("description", jsOrJ description (Json.str "Basic calculation"))])
        else pure (Json.obj [])
  | some (Json.str "percentage") => do
      let total ← vget values "total"
      let part ← vget values "part"
      if jsTruthyOpt total && jsTruthyOpt part then do
        let tq ← asNum total
        let pq ← asNum part
        pure (Json.obj [("part", Json.num pq), ("total", Json.num tq),
          ("percentage", Json.num (round2 ((pq / tq) * 100))),
          ("description", jsOrJ description (Json.str "Percentage calculation"))])
      else do
        let amount ← vget values "amount"
        let pct ← vget values "percentage"
        if jsTruthyOpt amount && jsTruthyOpt pct then do
          let aq ← asNum amount
          let cq ← asNum pct
          pure (Json.obj [("amount", Json.num aq), ("percentage", Json.num cq),
            ("result", Json.num (round2 (aq * (cq / 100)))),
            ("description", jsOrJ description (Json.str "Percentage of amount"))])
        else pure (Json.obj [])
  | some (Json.str "budget_analysis") => do
      let incomeV ← vget values "income"
      let income ← jsOrNum incomeV 0
      let expensesV ← vget values "expenses"
      let expenses ← match expensesV with
        | some (Json.arr xs) => pure xs
        | some j => if jsTruthy j then Except.error "values.expenses.reduce is not a function"
                    else pure []
        | none => pure []
      let totalExpenses ← expenses.foldlM (fun sum e => do
          let amt ← match e with
            | Json.obj _ => jsOrNum (jGet e "amount") 0
            | Json.null => Except.error "Cannot read properties of null (reading amount)"
            | _ => jsOrNum none 0
          pure (sum + amt)) (0 : ℚ)
      let remaining := income - totalExpenses
      pure (Json.obj [("income", Json.num income), ("expenses", jsOrJ expensesV (Json.arr [])),
        ("total_expenses", Json.num totalExpenses),
        ("remaining_budget", Json.num remaining),
        ("budget_utilization", Json.num (round2 ((totalExpenses / income) * 100))),
        ("status", Json.str (if remaining ≥ 0 then "Within Budget" else "Over Budget")),
        ("description", jsOrJ description (Json.str "Budget analysis"))])
  | some (Json.str "roi_calculation") => do
      let investment ← jsOrNum (← vget values "investment") 0
      let returns ← jsOrNum (← vget values "returns") 0
      pure (Json.obj [("investment", Json.num investment), ("returns", Json.num returns),
        ("profit", Json.num (returns - investment)),
        ("roi_percentage", Json.num (round2 (((returns - investment) / investment) * 100))),
        ("description", jsOrJ description (Json.str "ROI calculation"))])
  | some (Json.str "salary_calculation") => do
      let annual ← jsOrNum (← vget values "annual_salary") 0
      let hoursPerWeek ← jsOrNum (← vget values "hours_per_week") 40
      let weeksPerYear ← jsOrNum (← vget values "weeks_per_year") 52
      pure (Json.obj [("annual_salary", Json.num annual),
        ("monthly_salary", Json.num (round2 (annual / 12))),
        ("weekly_salary", Json.num (round2 (annual / weeksPerYear))),
        ("daily_salary", Json.num (round2 (annual / (weeksPerYear * 5)))),
        ("hourly_rate", Json.num (round2 (annual / (weeksPerYear * hoursPerWeek)))),
        ("description", jsOrJ description (Json.str "Salary breakdown"))])
  | some (Json.str "compound_interest") => do
      let principal ← jsOrNum (← vget values "principal") 0
      let rate ← jsOrNum (← vget values "annual_rate") 0
      let time ← jsOrNum (← vget values "years") 0
      let compoundFrequency ← jsOrNum (← vget values "compound_frequency") 1
      let amount := principal * P.pow (1 + (rate / 100) / compoundFrequency) (compoundFrequency * time)
      pure (Json.obj [("principal", Json.num principal), ("annual_rate", Json.num rate),
        ("years", Json.num time), ("compound_frequency", Json.num compoundFrequency),
        ("final_amount", Json.num (round2 amount)),
        ("interest_earned", Json.num (round2 (amount - principal))),
        ("description", jsOrJ description (Json.str "Compound interest calculation"))])
  | some (Json.str "break_even") => do
      let fixedCosts ← jsOrNum (← vget values "fixed_costs") 0
      let variableCostPerUnit ← jsOrNum (← vget values "variable_cost_per_unit") 0
      let pricePerUnit ← jsOrNum (← vget values "price_per_unit") 0
      let contributionMargin := pricePerUnit - variableCostPerUnit
      let breakEvenUnits := fixedCosts / contributionMargin
      pure (Json.obj [("fixed_costs", Json.num fixedCosts),
        ("variable_cost_per_unit", Json.num variableCostPerUnit),
        ("price_per_unit", Json.num pricePerUnit),
        ("contribution_margin", Json.num (round2 contributionMargin)),
        ("break_even_units", Json.num (round2 breakEvenUnits)),
        ("break_even_revenue", Json.num (round2 (breakEvenUnits * pricePerUnit))),
        ("description", jsOrJ description (Json.str "Break-even analysis"))])
  | _ => .error ("Unknown operation: " ++ jsDisplay operation)

/-- Fields `JSON.stringify` keeps: an undefined-valued property is dropped. -/
def objField (k : String) : Option Json → List (String × Json)
  | none => []
  | some v => [(k, v)]

/-- The calculator tool: serializes the computed result, or — in the `catch`
branch — an error-describing object, so it returns a string in both cases. -/
def companyCalculator (P : CalcHost) (now : String) (input : Json) : String :=
  let operation := jGet input "operation"
  let values := jGet input "values"
  match calcCore P input with
  | .ok result =>
      Json.render (Json.obj (objField "calculation_type" operation ++
        [("result", result), ("timestamp", Json.str now)]))
  | .error m =>
      Json.render (Json.obj ([("error", Json.str ("Calculation error: " ++ m))] ++
        objField "operation" operation ++ objField "provided_values" values))

/-- A record of the loaded staff directory, reduced to the fields the lookup
searches and returns in this model. -/
structure StaffMember where
  name : String
  department : String
  role : String

def staffMemberJson (p : StaffMember) : Json :=
  Json.obj [("name", Json.str p.name), ("department", Json.str p.department),
    ("role", Json.str p.role)]

def staffListJson (sd : List StaffMember) : Json :=
  Json.obj [("staff", Json.arr (sd.map staffMemberJson))]

/-- The staff lookup tool (`switch (query_type)`); the error cases are
returned strings, not exceptions, except `.toLowerCase` on a truthy non-string
search term. -/
def lookupStaffDirectory (sd : List StaffMember) (input : Json) : Except String String :=
  let query_type := jGet input "query_type"
  let search_term := jGet input "search_term"
  match query_type with
  | some (Json.str "all") => .ok (Json.render (staffListJson sd))
  | some (Json.str "by_name") =>
      if !(jsTruthyOpt search_term) then .ok "Error: search_term is required for name lookup"
      else match search_term with
        | some (Json.str t) =>
            .ok (Json.render (staffListJson
              (sd.filter fun p => strIncludes (jsToLower p.name) (jsToLower t))))
        | _ => .error "search_term.toLowerCase is not a function"
  | some (Json.str "by_department") =>
      if !(jsTruthyOpt search_term) then .ok "Error: search_term is required for department lookup"
      else match search_term with
        | some (Json.str t) =>
            .ok (Json.render (staffListJson
              (sd.filter fun p => strIncludes (jsToLower p.department) (jsToLower t))))
        | _ => .error "search_term.toLowerCase is not a function"
  | some (Json.str "by_role") =>
      if !(jsTruthyOpt search_term) then .ok "Error: search_term is required for role lookup"
      else match search_term with
        | some (Json.str t) =>
            .ok (Json.render (staffListJson
              (sd.filter fun p => strIncludes (jsToLower p.role) (jsToLower t))))
        | _ => .error "search_term.toLowerCase is not a function"
  | _ => .ok "Error: Invalid query_type. Use \"all\", \"by_name\", \"by_department\", or \"by_role\""

/-- The dispatcher of `tools.js` (`switch (toolName)`): the two registered
tools, and a thrown `Unknown tool` error otherwise. -/
def executeTool (sd : List StaffMember) (P : CalcHost) (now : String)
    (toolName : String) (input : Json) : Except String String :=
  if toolName = "lookup_staff_directory" then lookupStaffDirectory sd input
  else if toolName = "company_calculator" then .ok (companyCalculator P now input)
  else .error ("Unknown tool: " ++ toolName)

/-! ## The retrieval tool of the RAG registry variant (modelled from the spec) -/

/-- One ranked match returned by the Retrieval Collaborator. -/
structure RagMatch where
  score : ℚ
  id : String
  metadata : Json

def ragMatchJson (m : RagMatch) : Json :=
  Json.obj [("score", Json.num m.score), ("id", Json.str m.id), ("metadata", m.metadata)]

/-- Modelled from the spec: the RAG-variant `tools.js` that implements the
retrieval tool `query_rag_system` is not under `src/`; only its README
declaration and its test/example callers are. Per the spec contract the tool
takes `{query: string, index_name: string, top_k?: 1..20 (default 5),
namespace?: string, filter?: object}`, asks the Retrieval Collaborator (the
`retrieve` parameter) for ranked matches, and returns
`{query, matches_found, results: [{score, id, metadata}]}` serialized as text. -/
def queryRagSystem
    (retrieve : String → String → ℚ → Option Json → Option Json → List RagMatch)
    (input : Json) : String :=
  let q := match jGet input "query" with | some (Json.str s) => s | _ => ""
  let idx := match jGet input "index_name" with | some (Json.str s) => s | _ => ""
  let topK : ℚ := match jGet input "top_k" with | some (Json.num k) => k | _ => 5
  let results := retrieve q idx topK (jGet input "namespace") (jGet input "filter")
  Json.render (Json.obj [("query", Json.str q),
    ("matches_found", Json.num (results.length : ℚ)),
    ("results", Json.arr (results.map ragMatchJson))])

/-- Modelled from the spec: the execution dispatcher of the RAG registry
variant, which exposes the single tool `query_rag_system`. -/
def executeToolRag
    (retrieve : String → String → ℚ → Option Json → Option Json → List RagMatch)
    (toolName : String) (input : Json) : Except String String :=
  if toolName = "query_rag_system" then .ok (queryRagSystem retrieve input)
  else .error ("Unknown tool: " ++ toolName)

/-! ## Request-body validation of `/api/chat` -/

/-- Outcome of the request entry: the early 400 rejection, or the work of the
rest of the handler. -/
inductive ChatOutcome where
  | badRequest (status : Nat) (error : String)
  | handled (out : String)

/-- The validation at the top of `app.post('/api/chat')`
(`if (!messages || !Array.isArray(messages))`); `run` abstracts everything
after it — every call to the Chat Completion Collaborator and to the Tool
Registry happens inside `run`, which is reached only when validation passes. -/
def chatHandler (run : List Json → String) (body : Json) : ChatOutcome :=
  match jGet body "messages" with
  | none => .badRequest 400 "Invalid messages format"
  | some m =>
      if jsTruthy m then
        match m with
        | Json.arr msgs => .handled (run msgs)
        | _ => .badRequest 400 "Invalid messages format"
      else .badRequest 400 "Invalid messages format"

/-- The text a block contributes to the client-visible transcript: its
concatenated fragments for a text block, nothing for a tool block. -/
def blockText : Block → String
  | Block.text fs => concatStrs fs
  | Block.tool _ _ _ => ""

/-! ## Lemmas about the streaming reconstruction -/

theorem processEvents_append (p : String → Option Json) (e1 e2 : List SEvent) (s : SState) :
    processEvents p (e1 ++ e2) s = processEvents p e2 (processEvents p e1 s) := by
  simp [processEvents]

theorem processEvents_textDeltas (p : String → Option Json) (fs : List String) (s : SState) :
    processEvents p (fs.map fun t => SEvent.blockDelta (Delta.textDelta t)) s
      = { s with currentTextBlock := s.currentTextBlock ++ concatStrs fs } := by
  induction fs generalizing s with
  | nil =>
      cases s
      simp [processEvents, concatStrs]
  | cons a l ih =>
      have h1 : processEvents p (SEvent.blockDelta (Delta.textDelta a) :: l.map
            fun t => SEvent.blockDelta (Delta.textDelta t)) s
          = processEvents p (l.map fun t => SEvent.blockDelta (Delta.textDelta t))
              { s with currentTextBlock := s.currentTextBlock ++ a } := rfl
      rw [List.map_cons, h1, ih]
      cases s
      simp [concatStrs, String.append_assoc]

theorem processEvents_jsonDeltas (p : String → Option Json) (fs : List String) (s : SState)
    (r : RawToolUse) (h : s.currentToolUse = some r) :
    processEvents p (fs.map fun t => SEvent.blockDelta (Delta.inputJsonDelta t)) s
      = { s with currentToolUse := some ⟨r.id, r.name, r.input ++ concatStrs fs⟩ } := by
  induction fs generalizing s r with
  | nil =>
      cases s
      cases h
      simp [processEvents, concatStrs]
  | cons a l ih =>
      have h1 : processEvents p (SEvent.blockDelta (Delta.inputJsonDelta a) :: l.map
            fun t => SEvent.blockDelta (Delta.inputJsonDelta t)) s
          = processEvents p (l.map fun t => SEvent.blockDelta (Delta.inputJsonDelta t))
              (stepEvent p s (SEvent.blockDelta (Delta.inputJsonDelta a))) := rfl
      rw [List.map_cons, h1]
      have h2 : stepEvent p s (SEvent.blockDelta (Delta.inputJsonDelta a))
          = { s with currentToolUse := some ⟨r.id, r.name, r.input ++ a⟩ } := by
        simp [stepEvent, h]
      rw [h2, ih _ ⟨r.id, r.name, r.input ++ a⟩ rfl]
      cases s
      simp [concatStrs, String.append_assoc]

theorem processEvents_encodeBlock (p : String → Option Json) (b : Block) (s : SState)
    (h1 : s.currentToolUse = none) (h2 : s.currentTextBlock = "") :
    processEvents p (encodeBlock b) s
      = { s with fullContent := s.fullContent ++ textsOfBlock b,
                 toolUseBlocks := s.toolUseBlocks ++ toolsOfBlock p b } := by
  cases b with
  | text fs =>
      have hstart : processEvents p (encodeBlock (Block.text fs)) s
          = processEvents p ((fs.map fun t => SEvent.blockDelta (Delta.textDelta t)) ++
              [SEvent.blockStop]) { s with currentTextBlock := "" } := rfl
      rw [hstart, processEvents_append, processEvents_textDeltas]
      cases s
      subst h1 h2
      simp only []
      by_cases hc : concatStrs fs = ""
      · simp [processEvents, stepEvent, hc, textsOfBlock, toolsOfBlock]
      · simp [processEvents, stepEvent, hc, textsOfBlock, toolsOfBlock]
  | tool id name fs =>
      have hstep : stepEvent p s (SEvent.blockStart (CBlock.toolUse id name))
          = { s with currentToolUse := some ⟨id, name, ""⟩ } := by
        cases s
        subst h2
        simp [stepEvent]
      have hstart : processEvents p (encodeBlock (Block.tool id name fs)) s
          = processEvents p ((fs.map fun t => SEvent.blockDelta (Delta.inputJsonDelta t)) ++
              [SEvent.blockStop])
              { s with currentToolUse := some ⟨id, name, ""⟩ } := by
        rw [← hstep]
        rfl
      rw [hstart, processEvents_append, processEvents_jsonDeltas p fs _ ⟨id, name, ""⟩ rfl]
      cases s
      subst h1 h2
      cases hp : p (concatStrs fs) with
      | none => simp [processEvents, stepEvent, hp, textsOfBlock, toolsOfBlock]
      | some v => simp [processEvents, stepEvent, hp, textsOfBlock, toolsOfBlock]

theorem processEvents_encodeBlocks (p : String → Option Json) (bs : List Block) (s : SState)
    (h1 : s.currentToolUse = none) (h2 : s.currentTextBlock = "") :
    processEvents p (encodeBlocks bs) s
      = { s with fullContent := s.fullContent ++ bs.flatMap textsOfBlock,
                 toolUseBlocks := s.toolUseBlocks ++ bs.flatMap (toolsOfBlock p) } := by
  induction bs generalizing s with
  | nil =>
      cases s
      simp [processEvents, encodeBlocks]
  | cons b bs ih =>
      have hsplit : encodeBlocks (b :: bs) = encodeBlock b ++ encodeBlocks bs := by
        simp [encodeBlocks]
      rw [hsplit, processEvents_append, processEvents_encodeBlock p b s h1 h2, ih]
      · cases s
        simp
      · simpa using h1
      · simpa using h2

theorem streamFinal_eq (p : String → Option Json) (bs : List Block) :
    processEvents p (encodeMessage bs) initState
      = ⟨bs.flatMap textsOfBlock, bs.flatMap (toolsOfBlock p), none, ""⟩ := by
  rw [encodeMessage, processEvents_append, processEvents_encodeBlocks p bs initState rfl rfl]
  simp [processEvents, stepEvent, initState]

/-! ## Claims about the streaming reconstruction -/

/-- C1: for every finite sequence of streamed events encoding interleaved text
and tool-invocation blocks (each block a start, its delta fragments, a stop,
the message ending with `message_stop`), the reconstructed `fullContent` and
`toolUseBlocks` lists are exactly the order-preserving projections of the
original block sequence — so their entries, taken together, keep the blocks'
original relative order — and every kept tool invocation carries the parse of
the concatenation of its `input_json_delta` fragments in arrival order. -/
theorem claim1_stream_reconstruction (p : String → Option Json) (bs : List Block) :
    (processEvents p (encodeMessage bs) initState).fullContent = bs.flatMap textsOfBlock ∧
    (processEvents p (encodeMessage bs) initState).toolUseBlocks = bs.flatMap (toolsOfBlock p) := by
  rw [streamFinal_eq]
  exact ⟨rfl, rfl⟩

/-- C3: the `(name, parsed input)` pairs `executeTool` is invoked with after a
streamed message are exactly one call per tool block whose accumulated buffer
parses; a block whose buffer fails to parse contributes no call and no pending
invocation, and the remaining blocks are still processed (the call list is the
full projection over all blocks). -/
theorem claim3_json_parse_gating (p : String → Option Json) (bs : List Block) :
    streamedCalls p bs
        = bs.flatMap (fun b => (toolsOfBlock p b).map fun t => (t.name, t.input)) ∧
    (∀ id name fs, p (concatStrs fs) = none → toolsOfBlock p (Block.tool id name fs) = []) ∧
    (∀ id name fs v, p (concatStrs fs) = some v →
        toolsOfBlock p (Block.tool id name fs) = [⟨id, name, v⟩]) := by
  refine ⟨?_, ?_, ?_⟩
  · show execCalls (processEvents p (encodeMessage bs) initState).toolUseBlocks = _
    rw [streamFinal_eq]
    simp [execCalls, List.map_flatMap]
  · intro id name fs h
    simp [toolsOfBlock, h]
  · intro id name fs v h
    simp [toolsOfBlock, h]

theorem claim3_witness :
    streamedCalls (fun s => if s = "1" then some (Json.num 1) else none)
        [Block.text ["Hi"], Block.tool "t1" "company_calculator" ["1"],
         Block.tool "t2" "broken" ["no", "pe"]]
      = [("company_calculator", Json.num 1)] ∧
    toolsOfBlock (fun s => if s = "1" then some (Json.num 1) else none)
        (Block.tool "t2" "broken" ["no", "pe"]) = [] := by
  have h := claim3_json_parse_gating (fun s => if s = "1" then some (Json.num 1) else none)
      [Block.text ["Hi"], Block.tool "t1" "company_calculator" ["1"],
       Block.tool "t2" "broken" ["no", "pe"]]
  refine ⟨?_, h.2.1 "t2" "broken" ["no", "pe"] (by rfl)⟩
  rw [h.1]
  rfl

/-! ## Claims about the tool execution loop -/

theorem runTools_eq_map (exec : String → Json → Except String String) (tus : List ToolUse) :
    runTools exec tus = tus.map (toolResult exec) := by
  have h : ∀ (l : List ToolUse) (acc : List ToolResult),
      l.foldl (fun a t => a ++ [toolResult exec t]) acc = acc ++ l.map (toolResult exec) := by
    intro l
    induction l with
    | nil => intro acc; simp
    | cons a l ih => intro acc; simp [ih]
  simpa [runTools] using h tus []

/-- C4: the execution loop produces exactly one tool result per pending
invocation, in invocation order; an invocation whose execution throws gets an
error-flagged result carrying the error message, and every other invocation
still gets its own result. -/
theorem claim4_error_isolation (exec : String → Json → Except String String)
    (tus : List ToolUse) :
    runTools exec tus = tus.map (toolResult exec) ∧
    (runTools exec tus).length = tus.length ∧
    (∀ t m, exec t.name t.input = Except.error m →
        toolResult exec t = ⟨t.id, "Error executing tool: " ++ m, true⟩) ∧
    (∀ t r, exec t.name t.input = Except.ok r → toolResult exec t = ⟨t.id, r, false⟩) := by
  refine ⟨runTools_eq_map exec tus, by simp [runTools_eq_map], ?_, ?_⟩
  · intro t m h
    simp [toolResult, h]
  · intro t r h
    simp [toolResult, h]

theorem claim4_witness :
    runTools (fun n _ => if n = "ok_tool" then Except.ok "fine" else Except.error "boom")
        [⟨"a", "bad_tool", Json.null⟩, ⟨"b", "ok_tool", Json.null⟩]
      = [⟨"a", "Error executing tool: boom", true⟩, ⟨"b", "fine", false⟩] ∧
    toolResult (fun n _ => if n = "ok_tool" then Except.ok "fine" else Except.error "boom")
        ⟨"a", "bad_tool", Json.null⟩
      = ⟨"a", "Error executing tool: boom", true⟩ := by
  have h := claim4_error_isolation
      (fun n _ => if n = "ok_tool" then Except.ok "fine" else Except.error "boom")
      [⟨"a", "bad_tool", Json.null⟩, ⟨"b", "ok_tool", Json.null⟩]
  refine ⟨?_, h.2.2.1 ⟨"a", "bad_tool", Json.null⟩ "boom" (by rfl)⟩
  rw [h.1]
  rfl

/-! ## Claims about the follow-up conversation -/

theorem buildAssistantContent_of_ne (fc : List String) (tus : List ToolUse) (h : tus ≠ []) :
    buildAssistantContent fc tus
      = (if jsTrim (concatStrs fc) ≠ "" then [ContentItem.text (jsTrim (concatStrs fc))] else [])
        ++ tus.map toolUseItem := by
  cases tus with
  | nil => exact absurd rfl h
  | cons a l =>
      by_cases ht : jsTrim (concatStrs fc) = ""
      · simp [buildAssistantContent, ht]
      · simp [buildAssistantContent, ht]

/-- C2 (counterexample): in a run that accumulated no text and one parsed tool
invocation, the new assistant turn's content is exactly the tool-use block —
it is not the single empty-text placeholder block the claim describes (the
placeholder branch cannot fire while the pending list is non-empty). -/
theorem claim2_counterexample :
    buildAssistantContent [] [⟨"toolu_1", "company_calculator", Json.obj []⟩]
      = [ContentItem.toolUse "toolu_1" "company_calculator" (Json.obj [])] ∧
    buildAssistantContent [] [⟨"toolu_1", "company_calculator", Json.obj []⟩]
      ≠ [ContentItem.text ""] := by
  refine ⟨rfl, ?_⟩
  rw [show buildAssistantContent [] [⟨"toolu_1", "company_calculator", Json.obj []⟩]
      = [ContentItem.toolUse "toolu_1" "company_calculator" (Json.obj [])] from rfl]
  simp

/-- C2 (amended): every streaming run that reaches `message_stop` with a
non-empty parsed invocation list extends the conversation by exactly one
assistant turn and one user turn; the assistant turn's content is non-empty —
the flushed trimmed text when there is any, followed by every tool-use block
in original order (no empty-text placeholder is inserted, since the tool-use
blocks already make the list non-empty) — and the user turn's content is the
tool results in invocation order. -/
theorem claim2_followup_structure (messages : List Msg) (fc : List String)
    (tus : List ToolUse) (exec : String → Json → Except String String) (h : tus ≠ []) :
    buildUpdatedMessages messages fc tus exec
      = messages ++
          [⟨"assistant", (if jsTrim (concatStrs fc) ≠ "" then
                [ContentItem.text (jsTrim (concatStrs fc))] else []) ++ tus.map toolUseItem⟩,
           ⟨"user", (tus.map (toolResult exec)).map toolResultContentItem⟩] ∧
    buildAssistantContent fc tus ≠ [] := by
  constructor
  · simp [buildUpdatedMessages, buildAssistantContent_of_ne fc tus h, runTools_eq_map]
  · rw [buildAssistantContent_of_ne fc tus h]
    cases tus with
    | nil => exact absurd rfl h
    | cons a l => simp

theorem claim2_witness :
    buildUpdatedMessages [] [] [⟨"t", "company_calculator", Json.null⟩]
        (fun _ _ => Except.ok "r")
      = [⟨"assistant", [ContentItem.toolUse "t" "company_calculator" Json.null]⟩,
         ⟨"user", [ContentItem.toolResultItem "t" "r" false]⟩] ∧
    buildAssistantContent [] [⟨"t", "company_calculator", Json.null⟩] ≠ [] := by
  have h := claim2_followup_structure [] [] [⟨"t", "company_calculator", Json.null⟩]
      (fun _ _ => Except.ok "r") (by simp)
  refine ⟨?_, h.2⟩
  rw [h.1]
  rfl

/-! ## Claims about the client text assembly (streaming vs non-streaming) -/

theorem clientRun_append (e1 e2 : List SEvent) (c : ClientState) :
    clientRun (e1 ++ e2) c = clientRun e2 (clientRun e1 c) := by
  simp [clientRun]

theorem clientRun_textDeltas (fs : List String) (c : ClientState)
    (h : c.hasSeenToolUse = true) :
    clientRun (fs.map fun t => SEvent.blockDelta (Delta.textDelta t)) c
      = { c with accumulatedContent := c.accumulatedContent ++ concatStrs fs } := by
  induction fs generalizing c with
  | nil =>
      cases c
      simp [clientRun, concatStrs]
  | cons a l ih =>
      have h1 : clientRun (SEvent.blockDelta (Delta.textDelta a) :: l.map
            fun t => SEvent.blockDelta (Delta.textDelta t)) c
          = clientRun (l.map fun t => SEvent.blockDelta (Delta.textDelta t))
              (clientStep c (SEvent.blockDelta (Delta.textDelta a))) := rfl
      have h2 : clientStep c (SEvent.blockDelta (Delta.textDelta a))
          = { c with accumulatedContent := c.accumulatedContent ++ a } := by
        simp [clientStep, h]
      rw [List.map_cons, h1, h2, ih _ (by simpa using h)]
      cases c
      simp [concatStrs, String.append_assoc]

theorem clientRun_encodeBlock (b : Block) (c : ClientState)
    (h : c.hasSeenToolUse = true) (hp : c.pendingText = "") :
    clientRun (encodeBlock b) c
      = { c with accumulatedContent := c.accumulatedContent ++ blockText b } := by
  cases b with
  | text fs =>
      have h1 : clientRun (encodeBlock (Block.text fs)) c
          = clientRun ((fs.map fun t => SEvent.blockDelta (Delta.textDelta t)) ++
              [SEvent.blockStop]) (clientStep c (SEvent.blockStart CBlock.text)) := rfl
      have h2 : clientStep c (SEvent.blockStart CBlock.text) = c := rfl
      rw [h1, h2, clientRun_append, clientRun_textDeltas fs c h]
      cases c
      subst h hp
      simp [clientRun, clientStep, blockText]
  | tool id name fs =>
      have h1 : clientRun (encodeBlock (Block.tool id name fs)) c
          = clientRun ((fs.map fun t => SEvent.blockDelta (Delta.inputJsonDelta t)) ++
              [SEvent.blockStop]) (clientStep c (SEvent.blockStart (CBlock.toolUse id name))) := rfl
      have h2 : clientStep c (SEvent.blockStart (CBlock.toolUse id name))
          = { c with hasSeenToolUse := true, pendingText := "" } := rfl
      have h3 : ∀ (l : List String) (c' : ClientState),
          clientRun (l.map fun t => SEvent.blockDelta (Delta.inputJsonDelta t)) c' = c' := by
        intro l
        induction l with
        | nil => intro c'; rfl
        | cons a l ih => intro c'; exact ih c'
      rw [h1, h2, clientRun_append, h3]
      cases c
      subst h hp
      simp [clientRun, clientStep, blockText]

theorem clientRun_encodeBlocks (bs : List Block) (c : ClientState)
    (h : c.hasSeenToolUse = true) (hp : c.pendingText = "") :
    clientRun (encodeBlocks bs) c
      = { c with accumulatedContent := c.accumulatedContent ++ concatStrs (bs.map blockText) } := by
  induction bs generalizing c with
  | nil =>
      cases c
      subst h hp
      simp [clientRun, encodeBlocks, concatStrs]
  | cons b bs ih =>
      have hsplit : encodeBlocks (b :: bs) = encodeBlock b ++ encodeBlocks bs := by
        simp [encodeBlocks]
      rw [hsplit, clientRun_append, clientRun_encodeBlock b c h hp, ih]
      · cases c
        simp [concatStrs, String.append_assoc]
      · simpa using h
      · simpa using hp

theorem extractText_blocks (bs : List Block) :
    extractText (bs.map blockContentItem) = concatStrs (bs.map blockText) := by
  induction bs with
  | nil => rfl
  | cons b rest ih =>
      cases b with
      | text fs =>
          simp only [extractText, blockContentItem, blockText, ContentItem.isTextB,
            ContentItem.textVal, concatStrs, List.map_cons, List.filter_cons] at ih ⊢
          rw [ih]
      | tool id name fs =>
          simpa [extractText, blockContentItem, blockText, ContentItem.isTextB,
            ContentItem.textVal, concatStrs] using ih

/-- C6: for the same collaborator follow-up message (the same content blocks,
however fragmented), the text the browser client assembles from the relayed
follow-up stream — state after the first-pass tool use, so `hasSeenToolUse`
is set and the pending buffer is empty — equals the concatenation of the text
blocks of that message, which is exactly what the non-streaming branch returns
as the final response text. -/
theorem claim6_stream_nonstream_agree (bs : List Block) (c : ClientState)
    (h : c.hasSeenToolUse = true) (hp : c.pendingText = "") :
    (clientRun (encodeMessage bs) c).accumulatedContent
      = c.accumulatedContent ++ extractText (bs.map blockContentItem) := by
  rw [encodeMessage, clientRun_append, clientRun_encodeBlocks bs c h hp, extractText_blocks]
  have hstop : clientRun [SEvent.messageStop]
      { c with accumulatedContent := c.accumulatedContent ++ concatStrs (bs.map blockText) }
    = { c with accumulatedContent := c.accumulatedContent ++ concatStrs (bs.map blockText) } := by
    cases c
    subst h hp
    simp [clientRun, clientStep]
  rw [hstop]

theorem claim6_witness :
    (clientRun (encodeMessage [Block.text ["The result is ", "7500."]])
        ⟨"", "", true⟩).accumulatedContent
      = "The result is 7500." ∧
    extractText ([Block.text ["The result is ", "7500."]].map blockContentItem)
      = "The result is 7500." := by
  have h := claim6_stream_nonstream_agree [Block.text ["The result is ", "7500."]]
      ⟨"", "", true⟩ rfl rfl
  exact ⟨h.trans (by rfl), by rfl⟩

/-! ## Claims about the tool registry -/

/-- C7: dispatching an unregistered tool name throws the `Unknown tool` error,
and for both registered tools an underlying failure is surfaced as a
tool-level error result rather than aborting the enclosing request: a failure
inside the calculator's computation is caught and returned as an
error-describing JSON payload string (the dispatcher returns normally for
`company_calculator`); a missing required `search_term` makes the staff lookup
return its error string as a normal result; and when the staff lookup does
throw (the `.toLowerCase` TypeError on a truthy non-string search term) the
orchestrator's execution loop converts it into an error-flagged tool result,
so the other invocations and the request continue. -/
theorem claim7_dispatch_errors (sd : List StaffMember) (P : CalcHost) (now : String) :
    (∀ toolName input, toolName ≠ "lookup_staff_directory" →
        toolName ≠ "company_calculator" →
        executeTool sd P now toolName input = Except.error ("Unknown tool: " ++ toolName)) ∧
    (∀ input m, calcCore P input = Except.error m →
        executeTool sd P now "company_calculator" input
          = Except.ok (Json.render (Json.obj
              ([("error", Json.str ("Calculation error: " ++ m))] ++
                objField "operation" (jGet input "operation") ++
                objField "provided_values" (jGet input "values"))))) ∧
    (∀ qt kind, (qt, kind) ∈ [("by_name", "name"), ("by_department", "department"),
          ("by_role", "role")] →
        ∀ input, jGet input "query_type" = some (Json.str qt) →
        jsTruthyOpt (jGet input "search_term") = false →
        executeTool sd P now "lookup_staff_directory" input
          = Except.ok ("Error: search_term is required for " ++ kind ++ " lookup")) ∧
    (∀ id input m, executeTool sd P now "lookup_staff_directory" input = Except.error m →
        toolResult (executeTool sd P now) ⟨id, "lookup_staff_directory", input⟩
          = ⟨id, "Error executing tool: " ++ m, true⟩) := by
  refine ⟨?_, ?_, ?_, ?_⟩
  · intro n i h1 h2
    simp [executeTool, h1, h2]
  · intro i m h
    simp [executeTool, companyCalculator, h]
  · intro qt kind hmem input hq hs
    have hcases : (qt = "by_name" ∧ kind = "name") ∨ (qt = "by_department" ∧ kind = "department")
        ∨ (qt = "by_role" ∧ kind = "role") := by simpa using hmem
    rcases hcases with ⟨hq1, hk1⟩ | ⟨hq1, hk1⟩ | ⟨hq1, hk1⟩ <;> subst hq1 <;> subst hk1 <;>
      simp [executeTool, lookupStaffDirectory, hq, hs]
  · intro id input m h
    simp [toolResult, h]

theorem claim7_witness :
    executeTool [] ⟨fun _ => Except.error "eval disabled", fun _ _ => 0⟩ "ts"
        "query_rag_system" Json.null
      = Except.error "Unknown tool: query_rag_system" ∧
    executeTool [] ⟨fun _ => Except.error "eval disabled", fun _ _ => 0⟩ "ts"
        "company_calculator"
        (Json.obj [("operation", Json.str "divide"), ("values", Json.obj [])])
      = Except.ok (Json.render (Json.obj
          [("error", Json.str "Calculation error: Unknown operation: divide"),
           ("operation", Json.str "divide"), ("provided_values", Json.obj [])])) ∧
    executeTool [] ⟨fun _ => Except.error "eval disabled", fun _ _ => 0⟩ "ts"
        "lookup_staff_directory" (Json.obj [("query_type", Json.str "by_name")])
      = Except.ok "Error: search_term is required for name lookup" ∧
    toolResult (executeTool [] ⟨fun _ => Except.error "eval disabled", fun _ _ => 0⟩ "ts")
        ⟨"t1", "lookup_staff_directory",
          Json.obj [("query_type", Json.str "by_name"), ("search_term", Json.num 5)]⟩
      = ⟨"t1", "Error executing tool: search_term.toLowerCase is not a function", true⟩ := by
  have h := claim7_dispatch_errors [] ⟨fun _ => Except.error "eval disabled", fun _ _ => 0⟩ "ts"
  refine ⟨?_, ?_, ?_, ?_⟩
  · exact h.1 "query_rag_system" Json.null (by decide) (by decide)
  · exact h.2.1 (Json.obj [("operation", Json.str "divide"), ("values", Json.obj [])])
      "Unknown operation: divide" (by rfl)
  · exact h.2.2.1 "by_name" "name" (by decide)
      (Json.obj [("query_type", Json.str "by_name")]) (by rfl) (by rfl)
  · exact h.2.2.2 "t1"
      (Json.obj [("query_type", Json.str "by_name"), ("search_term", Json.num 5)])
      "search_term.toLowerCase is not a function" (by rfl)

/-- C8: the percentage scenario — operation `percentage` with values
`{amount: 50000, percentage: 15}` computes a result object whose `result`
field is 7500, and the tool returns the serialization of the payload carrying
that object. -/
theorem claim8_percentage_scenario (P : CalcHost) (now : String) :
    calcCore P (Json.obj [("operation", Json.str "percentage"),
        ("values", Json.obj [("amount", Json.num 50000), ("percentage", Json.num 15)])])
      = Except.ok (Json.obj [("amount", Json.num 50000), ("percentage", Json.num 15),
          ("result", Json.num 7500), ("description", Json.str "Percentage of amount")]) ∧
    companyCalculator P now (Json.obj [("operation", Json.str "percentage"),
        ("values", Json.obj [("amount", Json.num 50000), ("percentage", Json.num 15)])])
      = Json.render (Json.obj [("calculation_type", Json.str "percentage"),
          ("result", Json.obj [("amount", Json.num 50000), ("percentage", Json.num 15),
            ("result", Json.num 7500), ("description", Json.str "Percentage of amount")]),
          ("timestamp", Json.str now)]) := by
  have hv : round2 ((50000 : ℚ) * (15 / 100)) = 7500 := by
    norm_num [round2, jsRound]
  constructor
  · have h0 : calcCore P (Json.obj [("operation", Json.str "percentage"),
        ("values", Json.obj [("amount", Json.num 50000), ("percentage", Json.num 15)])])
        = Except.ok (Json.obj [("amount", Json.num 50000), ("percentage", Json.num 15),
            ("result", Json.num (round2 (50000 * (15 / 100)))),
            ("description", Json.str "Percentage of amount")]) := rfl
    rw [h0, hv]
  · have h1 : companyCalculator P now (Json.obj [("operation", Json.str "percentage"),
        ("values", Json.obj [("amount", Json.num 50000), ("percentage", Json.num 15)])])
        = Json.render (Json.obj [("calculation_type", Json.str "percentage"),
            ("result", Json.obj [("amount", Json.num 50000), ("percentage", Json.num 15),
              ("result", Json.num (round2 (50000 * (15 / 100)))),
              ("description", Json.str "Percentage of amount")]),
            ("timestamp", Json.str now)]) := rfl
    rw [h1, hv]

/-- C9: the `basic_math` sanitization only lets digits, the four arithmetic
operators, dot, parentheses and space through to the `eval` builtin; every
other character of the caller-supplied expression is removed. -/
theorem claim9_sanitization (s : String) (c : Char) :
    (c ∈ (sanitizeExpr s).toList → allowedChar c = true) ∧
    (c ∈ s.toList → allowedChar c = false → c ∉ (sanitizeExpr s).toList) := by
  have hkey : (sanitizeExpr s).toList = s.toList.filter allowedChar := rfl
  constructor
  · intro hc
    rw [hkey] at hc
    exact (List.mem_filter.mp hc).2
  · intro _ hfalse hcontra
    rw [hkey] at hcontra
    have htrue := (List.mem_filter.mp hcontra).2
    rw [hfalse] at htrue
    simp at htrue

theorem claim9_witness :
    allowedChar '+' = true ∧ ';' ∉ (sanitizeExpr "2+2; rm x").toList := by
  have h1 := (claim9_sanitization "2+2; rm x" '+').1
  have h2 := (claim9_sanitization "2+2; rm x" ';').2
  exact ⟨h1 (by decide), h2 (by decide) (by decide)⟩

/-! ## Claim about the retrieval tool (modelled from the spec) -/

/-- C5: in the RAG registry variant (modelled from the spec, see
`queryRagSystem`), `query_rag_system` is a registered tool of the execution
dispatcher: called with a query, an index name and a `top_k` between 1 and 20
it returns — not an unknown-tool error — the text serialization of
`{query, matches_found, results: [{score, id, metadata}]}` built from the
Retrieval Collaborator's matches. -/
theorem claim5_rag_registered
    (retrieve : String → String → ℚ → Option Json → Option Json → List RagMatch)
    (q idx : String) (k : ℕ) (h1 : 1 ≤ k) (h2 : k ≤ 20) :
    executeToolRag retrieve "query_rag_system"
        (Json.obj [("query", Json.str q), ("index_name", Json.str idx),
          ("top_k", Json.num (k : ℚ))])
      = Except.ok (Json.render (Json.obj [("query", Json.str q),
          ("matches_found", Json.num (((retrieve q idx (k : ℚ) none none).length : ℚ))),
          ("results", Json.arr ((retrieve q idx (k : ℚ) none none).map ragMatchJson))])) := by
  rfl

theorem claim5_witness :
    executeToolRag (fun _ _ _ _ _ => [⟨9/10, "doc-1", Json.obj [("text", Json.str "hello")]⟩])
        "query_rag_system"
        (Json.obj [("query", Json.str "What is machine learning?"),
          ("index_name", Json.str "kb"), ("top_k", Json.num ((5 : ℕ) : ℚ))])
      = Except.ok (Json.render (Json.obj [("query", Json.str "What is machine learning?"),
          ("matches_found", Json.num ((([⟨9/10, "doc-1",
              Json.obj [("text", Json.str "hello")]⟩] : List RagMatch).length : ℚ))),
          ("results", Json.arr (([⟨9/10, "doc-1",
              Json.obj [("text", Json.str "hello")]⟩] : List RagMatch).map ragMatchJson))])) :=
  claim5_rag_registered (fun _ _ _ _ _ => [⟨9/10, "doc-1", Json.obj [("text", Json.str "hello")]⟩])
    "What is machine learning?" "kb" 5 (by decide) (by decide)

/-! ## Claim about request validation -/

/-- C10: a request body whose `messages` field is absent, falsy or not an
array is answered with status 400 and `Invalid messages format`, and the
handler's outcome does not depend on anything downstream of the validation —
so neither the Chat Completion Collaborator nor the Tool Registry (both live
inside `run`) is invoked. -/
theorem claim10_invalid_messages (body : Json) (run run2 : List Json → String)
    (h : jGet body "messages" = none ∨
         ∃ m, jGet body "messages" = some m ∧
           (jsTruthy m = false ∨ ∀ xs, m ≠ Json.arr xs)) :
    chatHandler run body = ChatOutcome.badRequest 400 "Invalid messages format" ∧
    chatHandler run body = chatHandler run2 body := by
  have key : ∀ (r : List Json → String),
      chatHandler r body = ChatOutcome.badRequest 400 "Invalid messages format" := by
    intro r
    rcases h with h0 | ⟨m, hm, hcase⟩
    · simp [chatHandler, h0]
    · rcases hcase with hfalse | hnotarr
      · simp [chatHandler, hm, hfalse]
      · unfold chatHandler
        rw [hm]
        cases m with
        | arr xs => exact absurd rfl (hnotarr xs)
        | null => rfl
        | bool b => cases hb : jsTruthy (Json.bool b) <;> simp [hb]
        | num q => cases hb : jsTruthy (Json.num q) <;> simp [hb]
        | str s => cases hb : jsTruthy (Json.str s) <;> simp [hb]
        | obj kvs => cases hb : jsTruthy (Json.obj kvs) <;> simp [hb]
  exact ⟨key run, (key run).trans (key run2).symm⟩

theorem claim10_witness :
    chatHandler (fun _ => "collaborator reached") (Json.obj [("messages", Json.str "hi")])
      = ChatOutcome.badRequest 400 "Invalid messages format" ∧
    chatHandler (fun _ => "collaborator reached") (Json.obj [("messages", Json.str "hi")])
      = chatHandler (fun _ => "tool registry reached") (Json.obj [("messages", Json.str "hi")]) :=
  claim10_invalid_messages (Json.obj [("messages", Json.str "hi")])
    (fun _ => "collaborator reached") (fun _ => "tool registry reached")
    (Or.inr ⟨Json.str "hi", rfl, Or.inr fun xs => by simp⟩)
